import Mathlib

/-!
Verification of the quantity-precision subsystem of the asterdex-client
library. The JavaScript source is shallowly embedded: JS numbers are
modelled as exact rationals (at every concrete input used below the
IEEE-double computation of the source lands on the same value, which was
checked against the double semantics separately), decimal-string
arguments of the numeric helpers are modelled by the rational value that
parseFloat yields for them, and the asynchronous external collaborators
(order submission, exchange info) are modelled by explicit outcome
oracles consumed in program order. The learned-precision cache, a JS
object used as a string-keyed map, is modelled as an association list in
which an update shadows older bindings.
-/

/-- Model of JS String.prototype.toUpperCase for the ASCII symbol names
used by the library (src/precision-manager.js, src/step-size-database.js). -/
def strUpper (s : String) : String :=
  ⟨s.data.map Char.toUpper⟩

/-- Model of JS String.prototype.includes: sub occurs contiguously in s. -/
def strContains (s sub : String) : Bool :=
  (List.range (s.length + 1)).any fun i => sub.data.isPrefixOf (s.data.drop i)

/-- Case-sensitive association-list lookup, modelling JS property access
on a plain object used as a string-keyed map. -/
def assocLookup {α : Type} : List (String × α) → String → Option α
  | [], _ => none
  | (k, v) :: rest, key => if k = key then some v else assocLookup rest key

/-- Fuel-driven base-10 length recursion: provided fuel is at least n,
this counts how often n can be divided by 10 before dropping below 10. -/
def natLog10Aux : Nat → Nat → Nat
  | 0, _ => 0
  | fuel + 1, n => if n < 10 then 0 else natLog10Aux fuel (n / 10) + 1

/-- Floor of the base-10 logarithm of a natural number, kernel-computable. -/
def natLog10 (n : Nat) : Nat := natLog10Aux n n

/-- Floor of the base-10 logarithm of a positive rational, computed from
numerator and denominator digit counts plus one exact integer comparison. -/
def intLog10 (q : ℚ) : ℤ :=
  let a := q.num.toNat
  let d := q.den
  let la := natLog10 a
  let ld := natLog10 d
  if d * 10 ^ la ≤ a * 10 ^ ld then (la : ℤ) - ld else (la : ℤ) - ld - 1

/-- Model of the JS expression Math.round(-Math.log10(s)) for a positive
rational s. Math.round is floor(x + 1/2), so the result is the unique k
with 10 ^ (-2k - 1) < s ^ 2 ≤ 10 ^ (-2k + 1); for rational s the upper
boundary (s a power of ten times the square root of ten, irrational)
never occurs, so k is read off the parity of floor(log10(s ^ 2)). -/
def negLog10Round (s : ℚ) : ℤ :=
  let l := intLog10 (s * s)
  if l % 2 = 0 then -(l / 2) else -((l + 1) / 2)

/-- Model of x.toFixed(p) followed by parseFloat, applied to the exact
value: round x to p decimal digits, ties upward (ECMAScript toFixed picks
the larger integer candidate on a tie). -/
def roundHalfUpDec (x : ℚ) (p : Nat) : ℚ :=
  (⌊x * 10 ^ p + 1 / 2⌋ : ℚ) / 10 ^ p

/-- Embedding of roundToStepFloor from src/utils.js: return qty unchanged
for a degenerate step, otherwise derive the decimal precision as
Math.max(0, Math.round(-Math.log10(s))), floor qty to a multiple of the
step and re-round the product to that many decimal digits. -/
def roundToStepFloor (qty s : ℚ) : ℚ :=
  if s ≤ 0 then qty
  else
    let precision := (max 0 (negLog10Round s)).toNat
    roundHalfUpDec (⌊qty / s⌋ * s) precision

/-- Embedding of ensureMinNotional from src/utils.js: a non-positive
minimum notional disables the check, a notional already at or above the
floor leaves qty unchanged, otherwise the minimal quantity satisfying the
floor is step-floored. -/
def ensureMinNotional (qty price minNotional stepSize : ℚ) : ℚ :=
  if minNotional ≤ 0 then qty
  else if minNotional ≤ qty * price then qty
  else roundToStepFloor (minNotional / price) stepSize

/-- One record of STEP_SIZE_DATABASE from src/step-size-database.js. The
stepSize, minQty and maxQty fields are kept as the decimal strings of the
source; only the precision field is consumed by the precision resolver. -/
structure StepEntry where
  stepSize : String
  precision : Nat
  minQty : String
  maxQty : String
deriving DecidableEq

set_option maxHeartbeats 2000000 in
/-- Embedding of STEP_SIZE_DATABASE from src/step-size-database.js, all
72 entries in source order. -/
def STEP_SIZE_DATABASE : List (String × StepEntry) := [
  ("BTCUSDT", ⟨"0.001", 3, "0.001", "1000"⟩),
  ("ETHUSDT", ⟨"0.001", 3, "0.001", "10000"⟩),
  ("LTCUSDT", ⟨"0.001", 3, "0.001", "10000"⟩),
  ("BCHUSDT", ⟨"0.001", 3, "0.001", "10000"⟩),
  ("ETCUSDT", ⟨"0.001", 3, "0.001", "10000"⟩),
  ("TRXUSDT", ⟨"0.001", 3, "0.001", "10000"⟩),
  ("LINKUSDT", ⟨"0.001", 3, "0.001", "10000"⟩),
  ("UNIUSDT", ⟨"0.001", 3, "0.001", "10000"⟩),
  ("ATOMUSDT", ⟨"0.001", 3, "0.001", "10000"⟩),
  ("NEARUSDT", ⟨"0.001", 3, "0.001", "10000"⟩),
  ("FTMUSDT", ⟨"0.001", 3, "0.001", "10000"⟩),
  ("ALGOUSDT", ⟨"0.001", 3, "0.001", "10000"⟩),
  ("VETUSDT", ⟨"0.001", 3, "0.001", "10000"⟩),
  ("ICPUSDT", ⟨"0.001", 3, "0.001", "10000"⟩),
  ("FILUSDT", ⟨"0.001", 3, "0.001", "10000"⟩),
  ("APTUSDT", ⟨"0.001", 3, "0.001", "10000"⟩),
  ("SUIUSDT", ⟨"0.001", 3, "0.001", "10000"⟩),
  ("ARBUSDT", ⟨"0.001", 3, "0.001", "10000"⟩),
  ("OPUSDT", ⟨"0.001", 3, "0.001", "10000"⟩),
  ("INJUSDT", ⟨"0.001", 3, "0.001", "10000"⟩),
  ("SEIUSDT", ⟨"0.001", 3, "0.001", "10000"⟩),
  ("TIAUSDT", ⟨"0.001", 3, "0.001", "10000"⟩),
  ("WLDUSDT", ⟨"0.001", 3, "0.001", "10000"⟩),
  ("PENDLEUSDT", ⟨"0.001", 3, "0.001", "10000"⟩),
  ("JUPUSDT", ⟨"0.001", 3, "0.001", "10000"⟩),
  ("WUSDT", ⟨"0.001", 3, "0.001", "10000"⟩),
  ("BOMEUSDT", ⟨"0.001", 3, "0.001", "10000"⟩),
  ("BONKUSDT", ⟨"0.001", 3, "0.001", "10000"⟩),
  ("WIFUSDT", ⟨"0.001", 3, "0.001", "10000"⟩),
  ("POPCATUSDT", ⟨"0.001", 3, "0.001", "10000"⟩),
  ("MYROUSDT", ⟨"0.001", 3, "0.001", "10000"⟩),
  ("FLOKIUSDT", ⟨"0.001", 3, "0.001", "10000"⟩),
  ("PEPEUSDT", ⟨"0.001", 3, "0.001", "10000"⟩),
  ("SHIBUSDT", ⟨"0.001", 3, "0.001", "10000"⟩),
  ("DOGEUSDT", ⟨"1", 0, "1", "10000000"⟩),
  ("ADAUSDT", ⟨"1", 0, "1", "10000000"⟩),
  ("AVAXUSDT", ⟨"1", 0, "1", "300000"⟩),
  ("DOTUSDT", ⟨"1", 0, "1", "1000000"⟩),
  ("MATICUSDT", ⟨"1", 0, "1", "1000000"⟩),
  ("SOLUSDT", ⟨"0.01", 2, "0.01", "1000000"⟩),
  ("BNBUSDT", ⟨"0.01", 2, "0.01", "100000"⟩),
  ("XRPUSDT", ⟨"0.1", 1, "0.1", "1000000"⟩),
  ("ASTERUSDT", ⟨"0.01", 2, "0.01", "2000000"⟩),
  ("USDCUSDT", ⟨"0.01", 2, "0.01", "1000000"⟩),
  ("USDTUSDT", ⟨"0.01", 2, "0.01", "1000000"⟩),
  ("BUSDUSDT", ⟨"0.01", 2, "0.01", "1000000"⟩),
  ("TUSDUSDT", ⟨"0.01", 2, "0.01", "1000000"⟩),
  ("USDDUSDT", ⟨"0.01", 2, "0.01", "1000000"⟩),
  ("FDUSDUSDT", ⟨"0.01", 2, "0.01", "1000000"⟩),
  ("TUSDTUSDT", ⟨"0.01", 2, "0.01", "1000000"⟩),
  ("USDFUSDT", ⟨"0.01", 2, "0.01", "1000000"⟩),
  ("USDCEUSDT", ⟨"0.01", 2, "0.01", "1000000"⟩),
  ("USDBCUSDT", ⟨"0.01", 2, "0.01", "1000000"⟩),
  ("USD1USDT", ⟨"0.01", 2, "0.01", "1000000"⟩),
  ("VUSDTUSDT", ⟨"0.01", 2, "0.01", "1000000"⟩),
  ("CUSDTUSDT", ⟨"0.01", 2, "0.01", "1000000"⟩),
  ("LISUSDUSDT", ⟨"0.01", 2, "0.01", "1000000"⟩),
  ("BONUSUSDUSDT", ⟨"0.01", 2, "0.01", "1000000"⟩),
  ("CDLUSDT", ⟨"0.01", 2, "0.01", "1000000"⟩),
  ("TWTUSDT", ⟨"0.01", 2, "0.01", "1000000"⟩),
  ("FORMUSDT", ⟨"0.01", 2, "0.01", "1000000"⟩),
  ("LISTAUSDT", ⟨"0.01", 2, "0.01", "1000000"⟩),
  ("JLPUSDT", ⟨"0.01", 2, "0.01", "1000000"⟩),
  ("STONEUSDT", ⟨"0.01", 2, "0.01", "1000000"⟩),
  ("RSETHUSDT", ⟨"0.01", 2, "0.01", "1000000"⟩),
  ("WBETHUSDT", ⟨"0.01", 2, "0.01", "1000000"⟩),
  ("ASBNBUSDT", ⟨"0.01", 2, "0.01", "1000000"⟩),
  ("SLISBNBUSDT", ⟨"0.01", 2, "0.01", "1000000"⟩),
  ("FBTCUSDT", ⟨"0.01", 2, "0.01", "1000000"⟩),
  ("SOLVBTCUSDT", ⟨"0.01", 2, "0.01", "1000000"⟩),
  ("PUMPBTCUSDT", ⟨"0.01", 2, "0.01", "1000000"⟩),
  ("CAKEUSDT", ⟨"0.01", 2, "0.01", "1000000"⟩)]

/-- Embedding of getStepSizeInfo: uppercase the symbol, look it up. -/
def getStepSizeInfo (symbol : String) : Option StepEntry :=
  assocLookup STEP_SIZE_DATABASE (strUpper symbol)

/-- Embedding of getPrecisionFromDatabase: database precision or default 2. -/
def getPrecisionFromDatabase (symbol : String) : Nat :=
  match getStepSizeInfo symbol with
  | some info => info.precision
  | none => 2

/-- Embedding of getStepSizeFromDatabase: database step string or nothing
(the source returns null when the symbol is unknown). -/
def getStepSizeFromDatabase (symbol : String) : Option String :=
  match getStepSizeInfo symbol with
  | some info => some info.stepSize
  | none => none

/-- Embedding of isSymbolInDatabase: membership of the uppercased symbol. -/
def isSymbolInDatabase (symbol : String) : Bool :=
  (getStepSizeInfo symbol).isSome

/-- The learned-precision cache of PrecisionManager: symbol to precision. -/
abbrev PrecisionCache := List (String × Nat)

/-- Embedding of PrecisionManager.getPrecision. The cached branch mirrors
the JS truthiness test on this.precisionCache[symbol]: an absent entry and
a stored value 0 both fall through (0 is falsy in JS), the cache key is the
symbol string exactly as given, while the database and the pattern
fallback uppercase it. -/
def getPrecision (cache : PrecisionCache) (symbol : String) : Nat :=
  let cached := (assocLookup cache symbol).getD 0
  if cached ≠ 0 then cached
  else if isSymbolInDatabase symbol then getPrecisionFromDatabase symbol
  else
    let symbolUpper := strUpper symbol
    if strContains symbolUpper "BTC" || strContains symbolUpper "ETH" then 3
    else if strContains symbolUpper "ASTER" || strContains symbolUpper "SOL"
        || strContains symbolUpper "BNB" then 2
    else if strContains symbolUpper "XRP" then 1
    else if strContains symbolUpper "ADA" || strContains symbolUpper "DOGE"
        || strContains symbolUpper "AVAX" then 0
    else 2

/-- Embedding of PrecisionManager.setPrecision: update the in-memory map
(the accompanying file persistence has no observable effect on the model).
The new binding shadows any older binding for the same symbol. -/
def setPrecision (cache : PrecisionCache) (symbol : String) (precision : Nat) : PrecisionCache :=
  (symbol, precision) :: cache

/-- Embedding of PrecisionManager.roundQuantity:
Math.floor(quantity * 10 ^ precision) / 10 ^ precision. -/
def roundQuantity (quantity : ℚ) (precision : Nat) : ℚ :=
  (⌊quantity * 10 ^ precision⌋ : ℚ) / 10 ^ precision

/-- Embedding of PrecisionManager.getSmartQuantity. -/
def getSmartQuantity (cache : PrecisionCache) (symbol : String) (quantity : ℚ) : ℚ :=
  roundQuantity quantity (getPrecision cache symbol)

/-- Embedding of PrecisionManager.calculatePrecisionFromStepSize: default
3 on a non-positive parsed step, otherwise
Math.max(0, Math.round(-Math.log10(stepSizeNum))). -/
def calculatePrecisionFromStepSize (stepSize : ℚ) : Nat :=
  if stepSize ≤ 0 then 3
  else (max 0 (negLog10Round stepSize)).toNat

/-- One trading filter of an exchange-info snapshot; stepSize is absent
when the filter carries none. -/
structure ExchangeFilter where
  filterType : String
  stepSize : Option ℚ
deriving DecidableEq

/-- Exchange-info record of a single symbol. -/
structure ExchangeSymbolInfo where
  symbol : String
  filters : List ExchangeFilter
deriving DecidableEq

/-- Exchange-info snapshot: the list of symbol records. -/
structure ExchangeInfo where
  symbols : List ExchangeSymbolInfo
deriving DecidableEq

/-- Embedding of PrecisionManager.detectPrecisionFromExchangeInfo: find
the symbol, prefer the MARKET_LOT_SIZE step over the LOT_SIZE step, and
derive the precision; default 3 when the symbol or step size is absent. -/
def detectPrecisionFromExchangeInfo (exchangeInfo : ExchangeInfo) (symbol : String) : Nat :=
  match exchangeInfo.symbols.find? (fun s => s.symbol == symbol) with
  | none => 3
  | some symbolInfo =>
    let marketLotFilter := symbolInfo.filters.find? (fun f => f.filterType == "MARKET_LOT_SIZE")
    let lotFilter := symbolInfo.filters.find? (fun f => f.filterType == "LOT_SIZE")
    match Option.orElse (marketLotFilter.bind fun f => f.stepSize)
        (fun _ => lotFilter.bind fun f => f.stepSize) with
    | none => 3
    | some stepSize => calculatePrecisionFromStepSize stepSize

/-- The response.data payload of a venue error (code and message). -/
structure RespData where
  code : ℤ
  msg : String
deriving DecidableEq

/-- A transport error: response carries the venue payload when present
(network-level failures carry none). -/
structure SubmitError where
  response : Option RespData
deriving DecidableEq

/-- Outcome of one external submission call. -/
inductive SubmitOutcome where
  | success
  | failure (error : SubmitError)
deriving DecidableEq

/-- The venue precision-rejection test used by the catch blocks of
handlePrecisionError and placeMarketOrderSmart: code -1111 and a message
containing the precision-exceeded substring. -/
def isPrecisionExceeded (error : SubmitError) : Bool :=
  match error.response with
  | some data => data.code == -1111 && strContains data.msg "Precision is over the maximum"
  | none => false

/-- Result of the retry ladder: success at some precision, an opaque
error rethrown at some precision, or the aggregate all-precisions-failed
error. -/
inductive LadderOutcome where
  | succeeded (precision : Nat)
  | propagated (precision : Nat) (error : SubmitError)
  | exhausted
deriving DecidableEq

/-- The retry loop of handlePrecisionError, from the given precision down
to 0, paired with the number of submission calls performed. Each attempt
submits the quantity floored at the current precision; a precision
rejection decrements and continues, any other error stops the loop, and
falling past precision 0 yields the aggregate error. -/
def ladderRun (submit : Nat → ℚ → SubmitOutcome) (quantity : ℚ) :
    Nat → LadderOutcome × Nat
  | 0 =>
    match submit 0 (roundQuantity quantity 0) with
    | .success => (.succeeded 0, 1)
    | .failure e =>
      if isPrecisionExceeded e then (.exhausted, 1) else (.propagated 0 e, 1)
  | precision + 1 =>
    match submit (precision + 1) (roundQuantity quantity (precision + 1)) with
    | .success => (.succeeded (precision + 1), 1)
    | .failure e =>
      if isPrecisionExceeded e then
        let rest := ladderRun submit quantity precision
        (rest.1, rest.2 + 1)
      else (.propagated (precision + 1) e, 1)

/-- Embedding of PrecisionManager.handlePrecisionError: run the ladder
from getPrecision(symbol); on success persist the working precision via
setPrecision, otherwise leave the cache untouched and surface the
outcome (rethrow or aggregate error). -/
def handlePrecisionError (cache : PrecisionCache) (symbol : String) (quantity : ℚ)
    (submit : Nat → ℚ → SubmitOutcome) : LadderOutcome × PrecisionCache :=
  let startPrecision := getPrecision cache symbol
  match (ladderRun submit quantity startPrecision).1 with
  | .succeeded p => (.succeeded p, setPrecision cache symbol p)
  | .propagated p e => (.propagated p e, cache)
  | .exhausted => (.exhausted, cache)

/-- Oracle environment of one placeMarketOrderSmart run: the outcomes of
the external calls in program order (initial submission, exchange-info
fetch with none modelling a throw, the post-detection submission, and the
per-precision outcomes of the fallback ladder). -/
structure SmartEnv where
  firstOutcome : SubmitOutcome
  exchangeInfo : Option ExchangeInfo
  detectedOutcome : SubmitOutcome
  ladderSubmit : Nat → ℚ → SubmitOutcome

/-- Embedding of AsterdexClient.placeMarketOrderSmart: try once at the
smart precision; on a precision rejection run the auto-detection pass
(which persists the detected precision and retries once, any error of
this pass falling through to the ladder), then the retry ladder; any
other error is rethrown. The returned precision of a succeeded outcome
is the precision whose rounding produced the submitted quantity. -/
def placeMarketOrderSmart (cache : PrecisionCache) (symbol : String) (quantity : ℚ)
    (env : SmartEnv) : LadderOutcome × PrecisionCache :=
  match env.firstOutcome with
  | .success => (.succeeded (getPrecision cache symbol), cache)
  | .failure e =>
    if isPrecisionExceeded e then
      match env.exchangeInfo with
      | some info =>
        let detectedPrecision := detectPrecisionFromExchangeInfo info symbol
        let cacheAfterDetect := setPrecision cache symbol detectedPrecision
        match env.detectedOutcome with
        | .success => (.succeeded (getPrecision cacheAfterDetect symbol), cacheAfterDetect)
        | .failure _ => handlePrecisionError cacheAfterDetect symbol quantity env.ladderSubmit
      | none => handlePrecisionError cache symbol quantity env.ladderSubmit
    else (.propagated (getPrecision cache symbol) e, cache)

/-- Reference definition written from the wording of the specification
(section 4.1 fallback classifier): the ordered substring rule list over
the uppercased symbol with default 2, used to compare the heuristic
branch of getPrecision against the specified rule order. -/
def patternPrecisionSpec (symbol : String) : Nat :=
  let u := strUpper symbol
  if strContains u "BTC" || strContains u "ETH" then 3
  else if strContains u "ASTER" || strContains u "SOL" || strContains u "BNB" then 2
  else if strContains u "XRP" then 1
  else if strContains u "ADA" || strContains u "DOGE" || strContains u "AVAX" then 0
  else 2

/-- All values stored in a precision cache lie in the documented range. -/
def cacheBounded (cache : PrecisionCache) : Bool :=
  cache.all fun entry => entry.2 ≤ 4

/-- The venue precision-rejection error (code -1111 with the documented
message). -/
def precisionRejection : SubmitError :=
  ⟨some ⟨-1111, "Precision is over the maximum defined for this asset."⟩⟩

/-- An unrelated venue error (insufficient margin). -/
def marginRejection : SubmitError :=
  ⟨some ⟨-2019, "Margin is insufficient."⟩⟩

/-- Submission oracle rejecting every attempt for precision. -/
def alwaysPrecisionRejected : Nat → ℚ → SubmitOutcome :=
  fun _ _ => .failure precisionRejection

/-- Submission oracle that only accepts at precision 0, rejecting every
higher precision for precision. -/
def succeedsOnlyAtZero : Nat → ℚ → SubmitOutcome :=
  fun p _ => if p = 0 then .success else .failure precisionRejection

/-- Submission oracle that only accepts at precision 1, rejecting every
other precision for precision. -/
def succeedsOnlyAtOne : Nat → ℚ → SubmitOutcome :=
  fun p _ => if p = 1 then .success else .failure precisionRejection

/-- Submission oracle rejecting precisions at or above 3 for precision
and failing below 3 with the unrelated margin error. -/
def marginFailsBelowThree : Nat → ℚ → SubmitOutcome :=
  fun p _ => if p < 3 then .failure marginRejection else .failure precisionRejection

/-- Exchange-info snapshot holding one symbol with a single LOT_SIZE
filter carrying the given step size. -/
def infoWithLotStep (symbol : String) (stepSize : ℚ) : ExchangeInfo :=
  ⟨[⟨symbol, [⟨"LOT_SIZE", some stepSize⟩]⟩]⟩

/-- Smart-order environment in which no submission ever succeeds: the
initial attempt and the post-detection attempt are precision-rejected,
the exchange-info fetch returns a 0.01 step for BTCUSDT, and the ladder
is precision-rejected at every precision. -/
def envDetectionNoSuccess : SmartEnv :=
  ⟨.failure precisionRejection, some (infoWithLotStep "BTCUSDT" (1 / 100)),
    .failure precisionRejection, alwaysPrecisionRejected⟩

/-- The fuel-driven digit recursion is exact on powers of ten whenever
the fuel dominates the argument. -/
theorem natLog10Aux_pow10 : ∀ (m fuel : Nat), 10 ^ m ≤ fuel → natLog10Aux fuel (10 ^ m) = m := by
  intro m
  induction m with
  | zero =>
    intro fuel hf
    rw [pow_zero] at hf ⊢
    cases fuel with
    | zero => omega
    | succ f => simp [natLog10Aux]
  | succ m ih =>
    intro fuel hf
    have h10 : 10 ^ (m + 1) = 10 ^ m * 10 := pow_succ 10 m
    have hone : 1 ≤ 10 ^ m := Nat.one_le_pow _ _ (by omega)
    have hge : 10 ≤ 10 ^ (m + 1) := by omega
    cases fuel with
    | zero => omega
    | succ f =>
      simp only [natLog10Aux]
      rw [if_neg (by omega)]
      have hdiv : 10 ^ (m + 1) / 10 = 10 ^ m := by
        rw [h10]
        exact Nat.mul_div_cancel _ (by omega)
      rw [hdiv, ih f (by omega)]

/-- Base-10 length of a power of ten. -/
theorem natLog10_pow10 (m : Nat) : natLog10 (10 ^ m) = m :=
  natLog10Aux_pow10 m (10 ^ m) le_rfl

/-- The model of Math.round(-Math.log10(s)) is exact on negative powers
of ten. -/
theorem negLog10Round_invPow10 (k : Nat) : negLog10Round ((1 : ℚ) / 10 ^ k) = (k : ℤ) := by
  have hbase : ((10 ^ (2 * k) : ℕ) : ℚ) = (10 : ℚ) ^ (2 * k) := by push_cast; rfl
  have hmul : ((1 : ℚ) / 10 ^ k) * ((1 : ℚ) / 10 ^ k) = ((10 ^ (2 * k) : ℕ) : ℚ)⁻¹ := by
    rw [hbase, div_mul_div_comm, one_mul, ← pow_add, one_div, two_mul]
  have hnum : (((10 ^ (2 * k) : ℕ) : ℚ)⁻¹).num = 1 :=
    Rat.inv_natCast_num_of_pos (by positivity)
  have hden : (((10 ^ (2 * k) : ℕ) : ℚ)⁻¹).den = 10 ^ (2 * k) :=
    Rat.inv_natCast_den_of_pos (by positivity)
  have hlone : natLog10 1 = 0 := rfl
  simp only [negLog10Round, intLog10, hmul, hnum, hden, Int.toNat_one, hlone,
    natLog10_pow10, pow_zero, mul_one, one_mul]
  rw [if_pos le_rfl, if_pos (by omega)]
  omega

/-- On a step of the form 1 / 10 ^ k, roundToStepFloor is exactly the
floor to k decimal digits. -/
theorem roundToStepFloor_invPow10 (q : ℚ) (k : Nat) :
    roundToStepFloor q ((1 : ℚ) / 10 ^ k) = (⌊q * 10 ^ k⌋ : ℚ) / 10 ^ k := by
  have hs : (0 : ℚ) < 1 / 10 ^ k := by positivity
  have hne : ((10 : ℚ) ^ k) ≠ 0 := by positivity
  rw [roundToStepFloor, if_neg (not_le.mpr hs)]
  simp only [negLog10Round_invPow10]
  rw [max_eq_right (Int.natCast_nonneg k), Int.toNat_natCast]
  rw [one_div, div_inv_eq_mul, roundHalfUpDec, inv_mul_cancel_right₀ hne]
  rw [add_comm ((⌊q * 10 ^ k⌋ : ℤ) : ℚ) (1 / 2), Int.floor_add_int]
  norm_num

/-- Concrete evaluation: the derived precision of the step 0.7 is 0. -/
theorem negLog10Round_sevenTenths : negLog10Round (7 / 10) = 0 := by
  have hmul : ((7 : ℚ) / 10) * ((7 : ℚ) / 10) = 49 / 100 := by norm_num
  have hnum : ((49 : ℚ) / 100).num = 49 := by norm_num
  have hden : ((49 : ℚ) / 100).den = 100 := by norm_num
  simp only [negLog10Round, intLog10, hmul, hnum, hden]
  decide

/-- Concrete evaluation: flooring 0.7 to the step 0.7 yields 1. -/
theorem roundToStepFloor_sevenTenths_self : roundToStepFloor (7 / 10) (7 / 10) = 1 := by
  have hfl : ⌊(7 : ℚ) / 10 / (7 / 10)⌋ = 1 := by norm_num
  simp only [roundToStepFloor, negLog10Round_sevenTenths, hfl]
  norm_num [roundHalfUpDec]

/-- Concrete evaluation: flooring 2.5 to the step 0.7 yields 2. -/
theorem roundToStepFloor_fiveHalves : roundToStepFloor (5 / 2) (7 / 10) = 2 := by
  have hfl : ⌊(5 : ℚ) / 2 / (7 / 10)⌋ = 3 := by
    rw [show (5 : ℚ) / 2 / (7 / 10) = 25 / 7 by norm_num]
    norm_num
  simp only [roundToStepFloor, negLog10Round_sevenTenths, hfl]
  norm_num [roundHalfUpDec]

/-- Concrete evaluation: flooring 2 to the step 0.7 yields 1. -/
theorem roundToStepFloor_two_step_sevenTenths : roundToStepFloor 2 (7 / 10) = 1 := by
  have hfl : ⌊(2 : ℚ) / (7 / 10)⌋ = 2 := by
    rw [show (2 : ℚ) / (7 / 10) = 20 / 7 by norm_num]
    norm_num
  simp only [roundToStepFloor, negLog10Round_sevenTenths, hfl]
  norm_num [roundHalfUpDec]

/-- Values found by the case-sensitive lookup satisfy any Boolean bound
that holds of every stored value. -/
theorem assocLookup_le_of_all {α : Type} (P : α → Bool) :
    ∀ (l : List (String × α)), (l.all fun e => P e.2) = true →
      ∀ (key : String) (v : α), assocLookup l key = some v → P v = true := by
  intro l
  induction l with
  | nil =>
    intro _ key v h
    simp [assocLookup] at h
  | cons head rest ih =>
    intro hall key v h
    rw [List.all_cons, Bool.and_eq_true] at hall
    obtain ⟨hh, ht⟩ := hall
    obtain ⟨k, w⟩ := head
    by_cases hk : k = key
    · rw [assocLookup, if_pos hk] at h
      cases h
      exact hh
    · rw [assocLookup, if_neg hk] at h
      exact ih ht key v h

/-- Every precision recorded in the step-size database is at most 4. -/
theorem dbPrecisionBounded : (STEP_SIZE_DATABASE.all fun e => e.2.precision ≤ 4) = true := by
  decide

/-- The registry path of the resolver never yields a precision above 4. -/
theorem getPrecisionFromDatabase_le_four (symbol : String) :
    getPrecisionFromDatabase symbol ≤ 4 := by
  rw [getPrecisionFromDatabase]
  cases h : getStepSizeInfo symbol with
  | none =>
    simp only [h]
    omega
  | some info =>
    simp only [h]
    rw [getStepSizeInfo] at h
    have hb := assocLookup_le_of_all (fun v => v.precision ≤ 4) STEP_SIZE_DATABASE
      dbPrecisionBounded (strUpper symbol) info h
    exact of_decide_eq_true hb

/-- C3, counterexample: at the exact boundary 0.0001 * 50000 = 5 the
claimed result 0.001 is wrong; ensureMinNotional(0.0001, 50000, "5",
"0.001") does not return 0.001. -/
theorem ensureMinNotional_boundary_not_claimed_value :
    ensureMinNotional (1 / 10000) 50000 5 (1 / 1000) ≠ 1 / 1000 := by
  norm_num [ensureMinNotional]

/-- C3, amended: when the quantity-times-price notional lands exactly on
the minimum-notional boundary the notional check passes, and the quantity
is returned unchanged: ensureMinNotional(0.0001, 50000, "5", "0.001")
evaluates to 0.0001. -/
theorem ensureMinNotional_boundary_returns_qty :
    ensureMinNotional (1 / 10000) 50000 5 (1 / 1000) = 1 / 10000 := by
  norm_num [ensureMinNotional]

/-- C7, counterexample: with quantity 0.7 and step size 0.7 (satisfying
qty at least 0 and step above 0) the result 1 exceeds the quantity, so
floorToStep(qty, s) is not bounded by qty for general step sizes: the
final toFixed re-rounding at the derived precision 0 rounds 0.7 up. -/
theorem roundToStepFloor_can_exceed_qty :
    (0 : ℚ) ≤ 7 / 10 ∧ (0 : ℚ) < 7 / 10 ∧
      ¬ roundToStepFloor (7 / 10) (7 / 10) ≤ 7 / 10 := by
  refine ⟨by norm_num, by norm_num, ?_⟩
  rw [roundToStepFloor_sevenTenths_self]
  norm_num

/-- C7, amended: for every qty at least 0 and every step size of the
decimal form 1 / 10 ^ k (the form of every step in the registry), the
result never exceeds qty and is an exact integer multiple of the step at
the derived precision k, hence a multiple within any tolerance. -/
theorem roundToStepFloor_pow10_le_and_multiple (qty : ℚ) (k : Nat) (hq : 0 ≤ qty) :
    roundToStepFloor qty ((1 : ℚ) / 10 ^ k) ≤ qty ∧
      ∃ n : ℤ, roundToStepFloor qty ((1 : ℚ) / 10 ^ k) = n * ((1 : ℚ) / 10 ^ k) := by
  rw [roundToStepFloor_invPow10]
  constructor
  · rw [div_le_iff₀ (by positivity : (0 : ℚ) < 10 ^ k)]
    exact Int.floor_le _
  · exact ⟨⌊qty * 10 ^ k⌋, by rw [mul_one_div]⟩

/-- C7, witness at qty 1.23456 and step 0.001. -/
theorem roundToStepFloor_pow10_le_and_multiple_witness :
    (0 : ℚ) ≤ 123456 / 100000 ∧
      (roundToStepFloor (123456 / 100000) ((1 : ℚ) / 10 ^ 3) ≤ 123456 / 100000 ∧
        ∃ n : ℤ, roundToStepFloor (123456 / 100000) ((1 : ℚ) / 10 ^ 3) = n * ((1 : ℚ) / 10 ^ 3)) :=
  ⟨by norm_num, roundToStepFloor_pow10_le_and_multiple (123456 / 100000) 3 (by norm_num)⟩

/-- C8, counterexample: with quantity 2.5 and step size 0.7 the first
application yields 2 (floor to 2.1, re-rounded up at precision 0) and the
second application yields 1, so floorToStep is not idempotent for general
step sizes. -/
theorem roundToStepFloor_not_idempotent_sevenTenths :
    roundToStepFloor (roundToStepFloor (5 / 2) (7 / 10)) (7 / 10) ≠
      roundToStepFloor (5 / 2) (7 / 10) := by
  rw [roundToStepFloor_fiveHalves, roundToStepFloor_two_step_sevenTenths]
  norm_num

/-- C8, amended: floorToStep is idempotent for every step size of the
decimal form 1 / 10 ^ k, the form of every registry step size. -/
theorem roundToStepFloor_pow10_idempotent (q : ℚ) (k : Nat) :
    roundToStepFloor (roundToStepFloor q ((1 : ℚ) / 10 ^ k)) ((1 : ℚ) / 10 ^ k) =
      roundToStepFloor q ((1 : ℚ) / 10 ^ k) := by
  rw [roundToStepFloor_invPow10, roundToStepFloor_invPow10]
  rw [div_mul_cancel₀ _ (by positivity : ((10 : ℚ) ^ k) ≠ 0)]
  rw [Int.floor_intCast]

/-- C9: when the learned cache has no entry for the symbol and the symbol
is not in the registry, getPrecision agrees with the specified ordered
substring rule list (and its default 2). -/
theorem getPrecision_heuristic_matches_spec (cache : PrecisionCache) (symbol : String)
    (hcache : assocLookup cache symbol = none) (hdb : isSymbolInDatabase symbol = false) :
    getPrecision cache symbol = patternPrecisionSpec symbol := by
  simp [getPrecision, patternPrecisionSpec, hcache, hdb]

/-- C9, witness at a symbol matched by no rule. -/
theorem getPrecision_heuristic_matches_spec_witness :
    assocLookup ([] : PrecisionCache) "ZETAUSDT" = none ∧
      isSymbolInDatabase "ZETAUSDT" = false ∧
      getPrecision [] "ZETAUSDT" = patternPrecisionSpec "ZETAUSDT" :=
  ⟨rfl, by decide, getPrecision_heuristic_matches_spec [] "ZETAUSDT" rfl (by decide)⟩

/-- C10: the learned cache is consulted with the symbol string exactly as
given while the registry uppercases it, so a learned value stored under
the uppercase spelling is ignored when getPrecision is called with a
different spelling, and resolution proceeds exactly as with an empty
cache (registry or heuristic). -/
theorem getPrecision_cache_is_case_sensitive (symbol : String) (v : Nat)
    (h : symbol ≠ strUpper symbol) :
    getPrecision [(strUpper symbol, v)] symbol = getPrecision [] symbol := by
  have hl : assocLookup [(strUpper symbol, v)] symbol = none := by
    simp only [assocLookup, if_neg (Ne.symm h)]
  simp only [getPrecision, hl]
  rfl

/-- C10, witness: a learned precision 1 stored under BTCUSDT is ignored
for the lowercase spelling, which resolves to the registry value 3. -/
theorem getPrecision_cache_is_case_sensitive_witness :
    "btcusdt" ≠ strUpper "btcusdt" ∧
      getPrecision [(strUpper "btcusdt", 1)] "btcusdt" = getPrecision [] "btcusdt" ∧
      getPrecision [] "btcusdt" = 3 :=
  ⟨by decide, getPrecision_cache_is_case_sensitive "btcusdt" 1 (by decide), by decide⟩

/-- C4, counterexample: the live-metadata detection path is not clamped
to 4: a snapshot whose LOT_SIZE step is 0.00001 makes
detectPrecisionFromExchangeInfo return 5, outside [0, 4]. -/
theorem detection_precision_exceeds_four :
    detectPrecisionFromExchangeInfo (infoWithLotStep "XYZUSDT" (1 / 100000)) "XYZUSDT" = 5 ∧
      ¬ detectPrecisionFromExchangeInfo (infoWithLotStep "XYZUSDT" (1 / 100000)) "XYZUSDT" ≤ 4 := by
  have hcalc : calculatePrecisionFromStepSize ((1 : ℚ) / 100000) = 5 := by
    rw [show ((1 : ℚ) / 100000) = 1 / 10 ^ 5 by norm_num]
    rw [calculatePrecisionFromStepSize, if_neg (not_le.mpr (by positivity))]
    rw [negLog10Round_invPow10]
    decide
  have hdet : detectPrecisionFromExchangeInfo (infoWithLotStep "XYZUSDT" (1 / 100000)) "XYZUSDT" =
      calculatePrecisionFromStepSize ((1 : ℚ) / 100000) := rfl
  rw [hdet, hcalc]
  exact ⟨rfl, by norm_num⟩

/-- C4, amended: every precision resolved through the learned cache (for
caches whose stored values respect the documented range), the registry and
the substring heuristic (with its default) is an integer in [0, 4]; the
lower bound is inherent to the natural-number type. The live-metadata
detection path violates the claimed range (see the counterexample), so
the invariant is restricted to the resolver paths. -/
theorem getPrecision_range_bounded (cache : PrecisionCache) (symbol : String)
    (hcache : cacheBounded cache = true) : getPrecision cache symbol ≤ 4 := by
  have hcached : (assocLookup cache symbol).getD 0 ≤ 4 := by
    cases h : assocLookup cache symbol with
    | none => simp
    | some v =>
      rw [cacheBounded] at hcache
      have hb := assocLookup_le_of_all (fun v => v ≤ 4) cache hcache symbol v h
      simp only [Option.getD_some]
      exact of_decide_eq_true hb
  simp only [getPrecision]
  split_ifs <;> first
    | exact hcached
    | exact getPrecisionFromDatabase_le_four symbol
    | omega

/-- C4, witness at a bounded one-entry cache and a registry symbol. -/
theorem getPrecision_range_bounded_witness :
    cacheBounded [("ASTERUSDT", 2)] = true ∧ getPrecision [("ASTERUSDT", 2)] "ASTERUSDT" ≤ 4 :=
  ⟨by decide, getPrecision_range_bounded [("ASTERUSDT", 2)] "ASTERUSDT" (by decide)⟩

/-- C1, counterexample: on a symbol outside the registry whose heuristic
precision is 2, a ladder that succeeds at precision 0 (within the claimed
range 0 to 4 and strictly below the starting precision 2) persists 0, yet
the next getPrecision call returns 2, not 0: the JS truthiness test on the
cache treats the learned 0 as absent. -/
theorem learned_zero_precision_is_ignored :
    getPrecision [] "FOOUSDT" = 2 ∧
      (handlePrecisionError [] "FOOUSDT" 1 succeedsOnlyAtZero).1 = .succeeded 0 ∧
      (handlePrecisionError [] "FOOUSDT" 1 succeedsOnlyAtZero).2 = [("FOOUSDT", 0)] ∧
      getPrecision [("FOOUSDT", 0)] "FOOUSDT" ≠ 0 :=
  ⟨by decide, by decide, by decide, by decide⟩

/-- C1, amended: after the ladder succeeds at a precision p with
1 ≤ p ≤ 4 strictly below the starting precision and persists it via
setPrecision, a subsequent getPrecision for the same symbol string
returns p; for p = 0 the learned value is skipped by the cache truthiness
test and resolution falls back to the registry or heuristic. -/
theorem ladder_success_persists_nonzero_precision (cache : PrecisionCache) (symbol : String)
    (quantity : ℚ) (submit : Nat → ℚ → SubmitOutcome) (p : Nat)
    (hp1 : 1 ≤ p) (hp4 : p ≤ 4) (hlt : p < getPrecision cache symbol)
    (hsucc : (handlePrecisionError cache symbol quantity submit).1 = .succeeded p) :
    getPrecision (handlePrecisionError cache symbol quantity submit).2 symbol = p := by
  simp only [handlePrecisionError] at hsucc ⊢
  cases hl : (ladderRun submit quantity (getPrecision cache symbol)).1 with
  | succeeded q =>
    rw [hl] at hsucc
    have hqp : LadderOutcome.succeeded q = .succeeded p := hsucc
    have hq : q = p := by injection hqp
    subst hq
    show getPrecision (setPrecision cache symbol q) symbol = q
    have h0 : q ≠ 0 := by omega
    simp [getPrecision, setPrecision, assocLookup, h0]
  | propagated q e =>
    rw [hl] at hsucc
    exact absurd (show LadderOutcome.propagated q e = .succeeded p from hsucc) (by simp)
  | exhausted =>
    rw [hl] at hsucc
    exact absurd (show LadderOutcome.exhausted = .succeeded p from hsucc) (by simp)

/-- C1, witness: BTCUSDT starts at the registry precision 3, the ladder
succeeds at 1, and the next resolution returns 1. -/
theorem ladder_success_persists_nonzero_precision_witness :
    (1 ≤ 1 ∧ 1 ≤ 4 ∧ 1 < getPrecision [] "BTCUSDT" ∧
        (handlePrecisionError [] "BTCUSDT" 1 succeedsOnlyAtOne).1 = .succeeded 1) ∧
      getPrecision (handlePrecisionError [] "BTCUSDT" 1 succeedsOnlyAtOne).2 "BTCUSDT" = 1 :=
  ⟨⟨by decide, by decide, by decide, by decide⟩,
    ladder_success_persists_nonzero_precision [] "BTCUSDT" 1 succeedsOnlyAtOne 1
      (by decide) (by decide) (by decide) (by decide)⟩

/-- C2: the ladder performs at most p0 + 1 submissions from any starting
precision p0, and scenario E holds: from the BTCUSDT starting precision 3,
with precision rejections at 3, 2 and 1 and success at 0, exactly 4
submissions are performed and precision 0 is persisted for the symbol. -/
theorem ladder_attempt_bound_and_scenarioE :
    (∀ (submit : Nat → ℚ → SubmitOutcome) (quantity : ℚ) (p0 : Nat),
        (ladderRun submit quantity p0).2 ≤ p0 + 1) ∧
      (ladderRun succeedsOnlyAtZero 1 3).2 = 4 ∧
      handlePrecisionError [] "BTCUSDT" 1 succeedsOnlyAtZero = (.succeeded 0, [("BTCUSDT", 0)]) := by
  refine ⟨?_, by decide, by decide⟩
  intro submit quantity p0
  induction p0 with
  | zero =>
    cases h : submit 0 (roundQuantity quantity 0) with
    | success => simp [ladderRun, h]
    | failure e =>
      simp only [ladderRun, h]
      split <;> simp
  | succ p ih =>
    cases h : submit (p + 1) (roundQuantity quantity (p + 1)) with
    | success => simp [ladderRun, h]
    | failure e =>
      simp only [ladderRun, h]
      split
      · simp
        omega
      · simp

/-- C5, counterexample: a smart placement in which no submission ever
succeeds (initial attempt, post-detection attempt and the whole ladder
are all precision-rejected) still mutates the persisted cache: the
auto-detection pass stores the detected precision 2 for BTCUSDT before
any success, so the cache after the run differs from the cache before. -/
theorem smart_detection_mutates_cache_without_success :
    placeMarketOrderSmart [] "BTCUSDT" 1 envDetectionNoSuccess = (.exhausted, [("BTCUSDT", 2)]) ∧
      ([("BTCUSDT", 2)] : PrecisionCache) ≠ ([] : PrecisionCache) := by
  constructor
  · have hcalc : calculatePrecisionFromStepSize ((1 : ℚ) / 100) = 2 := by
      rw [show ((1 : ℚ) / 100) = 1 / 10 ^ 2 by norm_num]
      rw [calculatePrecisionFromStepSize, if_neg (not_le.mpr (by positivity))]
      rw [negLog10Round_invPow10]
      decide
    have hdet : detectPrecisionFromExchangeInfo (infoWithLotStep "BTCUSDT" (1 / 100)) "BTCUSDT" =
        calculatePrecisionFromStepSize ((1 : ℚ) / 100) := rfl
    have hstep : placeMarketOrderSmart [] "BTCUSDT" 1 envDetectionNoSuccess =
        handlePrecisionError
          (setPrecision [] "BTCUSDT"
            (detectPrecisionFromExchangeInfo (infoWithLotStep "BTCUSDT" (1 / 100)) "BTCUSDT"))
          "BTCUSDT" 1 alwaysPrecisionRejected := rfl
    rw [hstep, hdet, hcalc]
    decide
  · decide

/-- C5, amended: within the retry ladder itself (handlePrecisionError)
the cache is mutated only by a successful attempt: whenever the ladder
ends exhausted or propagates an error, the cache after the ladder equals
the cache before it. The smart-placement auto-detection pass is the one
exception recorded by the counterexample. -/
theorem ladder_cache_unchanged_without_success (cache : PrecisionCache) (symbol : String)
    (quantity : ℚ) (submit : Nat → ℚ → SubmitOutcome)
    (h : (handlePrecisionError cache symbol quantity submit).1 = .exhausted ∨
      ∃ p e, (handlePrecisionError cache symbol quantity submit).1 = .propagated p e) :
    (handlePrecisionError cache symbol quantity submit).2 = cache := by
  simp only [handlePrecisionError] at h ⊢
  cases hl : (ladderRun submit quantity (getPrecision cache symbol)).1 with
  | succeeded q =>
    rw [hl] at h
    rcases h with h | ⟨p, e, h⟩
    · exact absurd (show LadderOutcome.succeeded q = .exhausted from h) (by simp)
    · exact absurd (show LadderOutcome.succeeded q = .propagated p e from h) (by simp)
  | propagated q e =>
    rfl
  | exhausted =>
    rfl

/-- C5, witness: an all-rejected ladder leaves an empty cache empty. -/
theorem ladder_cache_unchanged_without_success_witness :
    (handlePrecisionError [] "FOOUSDT" 1 alwaysPrecisionRejected).1 = .exhausted ∧
      (handlePrecisionError [] "FOOUSDT" 1 alwaysPrecisionRejected).2 = [] :=
  ⟨by decide, ladder_cache_unchanged_without_success [] "FOOUSDT" 1 alwaysPrecisionRejected
    (Or.inl (by decide))⟩

/-- When the ladder ends by propagating an error, that error came from
the submit call at the propagation precision, the error is not the venue
precision-rejection, the propagation precision is within the ladder
range, and the ladder stopped right there (p0 - p + 1 submissions). -/
theorem ladderRun_propagated_spec (submit : Nat → ℚ → SubmitOutcome) (quantity : ℚ) :
    ∀ (p0 p : Nat) (e : SubmitError),
      (ladderRun submit quantity p0).1 = .propagated p e →
        submit p (roundQuantity quantity p) = .failure e ∧
          isPrecisionExceeded e = false ∧ p ≤ p0 ∧
          (ladderRun submit quantity p0).2 = (p0 - p) + 1 := by
  intro p0
  induction p0 with
  | zero =>
    intro p e hprop
    cases h : submit 0 (roundQuantity quantity 0) with
    | success => simp [ladderRun, h] at hprop
    | failure e0 =>
      simp only [ladderRun, h] at hprop
      by_cases hpe : isPrecisionExceeded e0 = true
      · rw [if_pos hpe] at hprop
        simp at hprop
      · rw [if_neg hpe] at hprop
        simp only [Bool.not_eq_true] at hpe
        simp only [Prod.fst] at hprop
        have hinj : 0 = p ∧ e0 = e := by
          have : LadderOutcome.propagated 0 e0 = .propagated p e := hprop
          injection this with h1 h2
          exact ⟨h1, h2⟩
        obtain ⟨hp, he⟩ := hinj
        subst hp
        subst he
        refine ⟨h, hpe, le_refl 0, ?_⟩
        simp [ladderRun, h, hpe]
  | succ n ih =>
    intro p e hprop
    cases h : submit (n + 1) (roundQuantity quantity (n + 1)) with
    | success => simp [ladderRun, h] at hprop
    | failure e0 =>
      simp only [ladderRun, h] at hprop
      by_cases hpe : isPrecisionExceeded e0 = true
      · rw [if_pos hpe] at hprop
        simp only [Prod.fst] at hprop
        have hrec : (ladderRun submit quantity n).1 = .propagated p e := hprop
        obtain ⟨h1, h2, h3, h4⟩ := ih p e hrec
        refine ⟨h1, h2, by omega, ?_⟩
        simp only [ladderRun, h, if_pos hpe]
        show (ladderRun submit quantity n).2 + 1 = (n + 1 - p) + 1
        omega
      · rw [if_neg hpe] at hprop
        simp only [Bool.not_eq_true] at hpe
        have hinj : n + 1 = p ∧ e0 = e := by
          have : LadderOutcome.propagated (n + 1) e0 = .propagated p e := hprop
          injection this with h1 h2
          exact ⟨h1, h2⟩
        obtain ⟨hp, he⟩ := hinj
        subst hp
        subst he
        refine ⟨h, hpe, le_refl _, ?_⟩
        simp [ladderRun, h, hpe]

/-- A non-precision failure at the current precision stops the ladder
immediately: the error is propagated unchanged after one submission. -/
theorem ladderRun_propagates_other_error (submit : Nat → ℚ → SubmitOutcome) (quantity : ℚ)
    (p : Nat) (e : SubmitError) (h : submit p (roundQuantity quantity p) = .failure e)
    (hpe : isPrecisionExceeded e = false) :
    ladderRun submit quantity p = (.propagated p e, 1) := by
  cases p with
  | zero => simp [ladderRun, h, hpe]
  | succ n => simp [ladderRun, h, hpe]

/-- When every precision from the start down to 0 is precision-rejected,
the ladder terminates with the aggregate all-precisions-failed outcome. -/
theorem ladderRun_exhausted_of_all_precision (submit : Nat → ℚ → SubmitOutcome) (quantity : ℚ) :
    ∀ (p0 : Nat),
      (∀ q, q ≤ p0 → ∃ e, submit q (roundQuantity quantity q) = .failure e ∧
          isPrecisionExceeded e = true) →
        (ladderRun submit quantity p0).1 = .exhausted := by
  intro p0
  induction p0 with
  | zero =>
    intro hall
    obtain ⟨e, he, hpe⟩ := hall 0 le_rfl
    simp [ladderRun, he, hpe]
  | succ n ih =>
    intro hall
    obtain ⟨e, he, hpe⟩ := hall (n + 1) le_rfl
    simp only [ladderRun, he, hpe, if_pos]
    show (ladderRun submit quantity n).1 = LadderOutcome.exhausted
    exact ih fun q hq => hall q (by omega)

/-- C6: during the retry ladder, only the venue precision-rejection
(code -1111 with the precision-exceeded message substring) triggers a
further attempt; any other error from the submit function is propagated
to the caller unchanged with no further retry, and when every precision
from the start down to 0 is precision-rejected the engine raises the
aggregate all-precisions-failed error. -/
theorem ladder_error_propagation_policy :
    (∀ (submit : Nat → ℚ → SubmitOutcome) (quantity : ℚ) (p0 p : Nat) (e : SubmitError),
        (ladderRun submit quantity p0).1 = .propagated p e →
          submit p (roundQuantity quantity p) = .failure e ∧
            isPrecisionExceeded e = false ∧ p ≤ p0 ∧
            (ladderRun submit quantity p0).2 = (p0 - p) + 1) ∧
      (∀ (submit : Nat → ℚ → SubmitOutcome) (quantity : ℚ) (p : Nat) (e : SubmitError),
          submit p (roundQuantity quantity p) = .failure e → isPrecisionExceeded e = false →
            ladderRun submit quantity p = (.propagated p e, 1)) ∧
      (∀ (submit : Nat → ℚ → SubmitOutcome) (quantity : ℚ) (p0 : Nat),
          (∀ q, q ≤ p0 → ∃ e, submit q (roundQuantity quantity q) = .failure e ∧
              isPrecisionExceeded e = true) →
            (ladderRun submit quantity p0).1 = .exhausted) :=
  ⟨fun submit quantity p0 p e h => ladderRun_propagated_spec submit quantity p0 p e h,
    fun submit quantity p e h hpe => ladderRun_propagates_other_error submit quantity p e h hpe,
    fun submit quantity p0 h => ladderRun_exhausted_of_all_precision submit quantity p0 h⟩

/-- C6, witness: a ladder from precision 3 that is precision-rejected at
3 and hits an insufficient-margin error at 2 propagates that error
unchanged after exactly two submissions; an always-precision-rejected
ladder from 3 ends exhausted. -/
theorem ladder_error_propagation_policy_witness :
    (marginFailsBelowThree 2 (roundQuantity 1 2) = .failure marginRejection ∧
        isPrecisionExceeded marginRejection = false ∧ 2 ≤ 3 ∧
        (ladderRun marginFailsBelowThree 1 3).2 = (3 - 2) + 1) ∧
      ladderRun marginFailsBelowThree 1 2 = (.propagated 2 marginRejection, 1) ∧
      (ladderRun alwaysPrecisionRejected 1 3).1 = .exhausted :=
  ⟨ladder_error_propagation_policy.1 marginFailsBelowThree 1 3 2 marginRejection (by decide),
    ladder_error_propagation_policy.2.1 marginFailsBelowThree 1 2 marginRejection
      (by decide) (by decide),
    ladder_error_propagation_policy.2.2 alwaysPrecisionRejected 1 3
      (fun q hq => ⟨precisionRejection, rfl, by decide⟩)⟩
